import Mathlib

/-!
# Verification of the OpenOA-Analyser backend pipeline

Shallow embedding of the wind-turbine SCADA analysis pipeline from
`backend/services/analysis.py` and `backend/services/loss_analysis.py`.

Modelling conventions:
* Python floats are modelled by `ℚ` (the pipeline's arithmetic is
  +, -, ×, /, comparisons; square roots are handled by carrying the
  squared quantity, see `PowerCurveBin`).
* A pandas column cell that may be NaN is modelled by `Option ℚ`
  (`none` = NaN); comparisons against NaN are `false`, as in pandas.
* DataFrame column presence is modelled by boolean fields on `Dataset`.
* `safe_round(x, 2)` from `utils/helpers.py` is modelled by
  `safe_round2` (round half towards +∞ instead of Python's banker's
  rounding; the difference only matters at exact ties, which none of
  the proved properties depend on).
-/

namespace OpenOAAnalyser

/-- Default cut-in wind speed (m/s), `DEFAULT_CUT_IN_WS` in the source. -/
def DEFAULT_CUT_IN_WS : ℚ := 3

/-- Default cut-out wind speed (m/s), `DEFAULT_CUT_OUT_WS` in the source. -/
def DEFAULT_CUT_OUT_WS : ℚ := 25

/-- Default rated wind speed (m/s), `DEFAULT_RATED_WS` in the source. -/
def DEFAULT_RATED_WS : ℚ := 12

/-- `utils.helpers.safe_round(value, 2)`: round to two decimal places.
The model keeps the value in `ℚ` (the Python code rounds a float). -/
def safe_round2 (x : ℚ) : ℚ := (round (x * 100) : ℤ) / 100

/-- `np.clip(x, lo, hi)`. -/
def clipQ (x lo hi : ℚ) : ℚ := min (max x lo) hi

/-- Arithmetic mean of a list (`Series.mean` / `ndarray.mean`);
`0` for the empty list (unreached by the guarded call sites). -/
def meanQ (l : List ℚ) : ℚ := l.sum / (l.length : ℚ)

/-- Population variance (`ndarray.std() ** 2`, numpy default `ddof=0`):
mean squared deviation with divisor `n`. -/
def popVarQ (l : List ℚ) : ℚ := ((l.map (fun x => (x - meanQ l) ^ 2)).sum) / (l.length : ℚ)

/-- Sample variance with Bessel correction (divisor `n − 1`) — the square
of the *sample standard deviation* in its standard statistical meaning.
This is the spec's reading in C8, stated here for comparison with the
code's `popVarQ`. -/
def sampleVarQ (l : List ℚ) : ℚ :=
  ((l.map (fun x => (x - meanQ l) ^ 2)).sum) / ((l.length : ℚ) - 1)

/-- Minimum of a list (`ndarray.min()`); `0` for the empty list. -/
def listMinQ : List ℚ → ℚ
  | [] => 0
  | h :: t => t.foldl min h

/-- Maximum of a list (`ndarray.max()` / `np.nanmax`); `0` for the empty list. -/
def listMaxQ : List ℚ → ℚ
  | [] => 0
  | h :: t => t.foldl max h

/-- One cleaned SCADA record as `_resolve_availability` and the filter
pipeline see it: numeric `wind_speed`/`power`, an optional numeric
`availability` cell (`none` = NaN after `pd.to_numeric`), and the
`turbine_status` cell (stringified by `_load_and_clean`). -/
structure ScadaRow where
  ws : ℚ
  power : ℚ
  avail : Option ℚ
  status : String
deriving DecidableEq

/-- A DataFrame together with which of the two optional columns exist
(`"availability" in df.columns`, `"turbine_status" in df.columns`). -/
structure Dataset where
  has_availability : Bool
  has_turbine_status : Bool
  rows : List ScadaRow
deriving DecidableEq

/-- The whitelist `normal_codes` of `_resolve_availability`. -/
def normal_codes : List String := ["1", "1.0", "normal", "run", "running", "ok"]

/-- The explicit availability column after `to_numeric(...).fillna(1)`:
each cell's numeric value, with NaN replaced by 1. -/
def availability_filled (rows : List ScadaRow) : List ℚ :=
  rows.map (fun r => r.avail.getD 1)

/-- `_resolve_availability` (analysis.py lines 209–243): returns the
resolved availability column.

* explicit `availability` column: `to_numeric(...).fillna(1)`, and if the
  maximum filled value exceeds 1 the whole column is divided by 100
  (`avail.max() > 1` is modelled by `filled.any (1 < ·)`, which agrees
  with it on every nonempty list and is also `false` for the empty
  column, as NaN-propagating `max` makes the Python comparison `False`);
* else `turbine_status` column: 1 for lower-cased values in
  `normal_codes`, 0 otherwise;
* else inferred: 0 exactly when `power ≤ 0 ∧ wind_speed > cut-in`. -/
def resolve_availability (d : Dataset) : List ℚ :=
  if d.has_availability then
    if (availability_filled d.rows).any (fun x => decide (1 < x)) then
      (availability_filled d.rows).map (fun x => x / 100)
    else availability_filled d.rows
  else if d.has_turbine_status then
    d.rows.map (fun r => if r.status.toLower ∈ normal_codes then (1 : ℚ) else 0)
  else
    d.rows.map (fun r => if r.power ≤ 0 ∧ DEFAULT_CUT_IN_WS < r.ws then (0 : ℚ) else 1)

/-- The `method` field of `run_full_analysis`'s result (analysis.py
line 107): `"openoa" if OPENOA_AVAILABLE else "fallback"`. -/
def method_field (openoa_available : Bool) : String :=
  if openoa_available then "openoa" else "fallback"

/-! ## Multi-stage filter pipeline (`_openoa_filter_pipeline`) -/

/-- Pointwise OR of the six flag columns of `_openoa_filter_pipeline`
(`ws_range`, `pw_range`, `ws_stuck`, `pw_stuck`, `low_ws_high_pw`,
`pc_outlier`), i.e. `flags.any(axis=1)`. -/
def combined_flags : List Bool → List Bool → List Bool → List Bool → List Bool → List Bool →
    List Bool
  | a :: t1, b :: t2, c :: t3, d :: t4, e :: t5, f :: t6 =>
      (a || b || c || d || e || f) :: combined_flags t1 t2 t3 t4 t5 t6
  | _, _, _, _, _, _ => []

/-- `df.loc[~combined].reset_index(drop=True)`: keep exactly the rows whose
combined flag is `false`. -/
def drop_flagged (rows : List ScadaRow) (combined : List Bool) : List ScadaRow :=
  ((rows.zip combined).filter (fun p => !p.2)).map Prod.fst

/-- `_openoa_filter_pipeline` (analysis.py lines 251–309).  The six flag
columns are produced by OpenOA library calls (`range_flag` twice,
`unresponsive_flag` twice, `window_range_flag`, `bin_filter`); the library
is external to this repository, so each stage is a parameter: a function
from the input DataFrame to its boolean flag column.  The pipeline itself
only combines the columns with a logical OR and drops flagged rows. -/
def openoa_filter_pipeline
    (ws_range pw_range ws_stuck pw_stuck low_ws_high_pw pc_outlier :
      List ScadaRow → List Bool)
    (df : List ScadaRow) : List ScadaRow :=
  drop_flagged df
    (combined_flags (ws_range df) (pw_range df) (ws_stuck df) (pw_stuck df)
      (low_ws_high_pw df) (pc_outlier df))

/-! ## Binned power curve (`_manual_iec_binning`, `_openoa_iec_curve`) -/

/-- `np.arange(0, stop, step)` over `ℚ`. -/
def arangeQ (stop step : ℚ) : List ℚ :=
  if 0 < step ∧ 0 < stop then (List.range ⌈stop / step⌉.toNat).map (fun k => (k : ℚ) * step)
  else []

/-- `np.digitize(x, bins)` for an ascending `bins`: the number of bin
edges that are `≤ x`. -/
def digitize (x : ℚ) (bins : List ℚ) : ℕ :=
  (bins.filter (fun e => decide (e ≤ x))).length

/-- The bin edges: `np.arange(0, np.nanmax(ws) + bin_width, bin_width)`. -/
def bins_of (ws : List ℚ) (bin_width : ℚ) : List ℚ :=
  arangeQ (listMaxQ ws + bin_width) bin_width

/-- The bin centres: `bins[:-1] + bin_width / 2`. -/
def centres_of (ws : List ℚ) (bin_width : ℚ) : List ℚ :=
  (bins_of ws bin_width).dropLast.map (fun e => e + bin_width / 2)

/-- The power values falling in the `j`-th bin (0-based `j`; the source
enumerates centres from `i = 1` with mask `digitized == i`). -/
def bin_powers_at (ws pw : List ℚ) (bin_width : ℚ) (j : ℕ) : List ℚ :=
  ((ws.zip pw).filter (fun p => digitize p.1 (bins_of ws bin_width) = j + 1)).map Prod.snd

/-- One record of the binned power curve.

The source stores `std_power = pw[mask].std()` (a float square root) and
`ci = std_power / sqrt(count) * 1.96`; exact square roots do not exist in
`ℚ`, so the model carries the *squares* of those two fields
(`std_sq_power = std_power²`, `ci_half_sq = ci²`), which determine them
uniquely since both are nonnegative.  The reported bounds are
`ci_lower = mean_power − ci` and `ci_upper = mean_power + ci`.
`safe_round(·, 2)` display rounding of the float fields is omitted. -/
structure PowerCurveBin where
  wind_speed_bin : ℚ
  mean_power : ℚ
  std_sq_power : ℚ
  count : ℕ
  ci_half_sq : ℚ
  min_power : ℚ
  max_power : ℚ
deriving DecidableEq

/-- Per-bin statistics shared by both binning paths: population variance
(`numpy .std()` with its default `ddof=0`, squared) and squared 95%
half-width `(std/√count × 1.96)² = var / count × 1.96²`, with the source's
`count > 1` guards. -/
def mk_bin_stats (binPw : List ℚ) (centre meanPw : ℚ) : PowerCurveBin :=
  ⟨centre, meanPw,
   if 1 < binPw.length then popVarQ binPw else 0,
   binPw.length,
   if 1 < binPw.length then popVarQ binPw / (binPw.length : ℚ) * (49 / 25) ^ 2 else 0,
   listMinQ binPw, listMaxQ binPw⟩

/-- `_manual_iec_binning` (analysis.py lines 481–512): per-bin raw mean,
std, count, CI, min and max; bins with fewer than 3 samples are skipped
(`if count < 3: continue`). -/
def manual_iec_binning (ws pw : List ℚ) (bin_width : ℚ) : List PowerCurveBin :=
  (List.range (centres_of ws bin_width).length).filterMap (fun j =>
    if (bin_powers_at ws pw bin_width j).length < 3 then none
    else some (mk_bin_stats (bin_powers_at ws pw bin_width j)
      ((centres_of ws bin_width).getD j 0) (meanQ (bin_powers_at ws pw bin_width j))))

/-- `_openoa_iec_curve` (analysis.py lines 425–478): identical binning
loop, except `mean_power` comes from the fitted IEC curve evaluated at
the bin centre (`predicted[i - 1]`).  The curve function returned by
OpenOA's `IEC` is external, so it is a parameter; its `np.isnan` guard
has no counterpart over `ℚ`. -/
def openoa_iec_curve (curve_fn : ℚ → ℚ) (ws pw : List ℚ) (bin_width : ℚ) :
    List PowerCurveBin :=
  (List.range (centres_of ws bin_width).length).filterMap (fun j =>
    if (bin_powers_at ws pw bin_width j).length < 3 then none
    else some (mk_bin_stats (bin_powers_at ws pw bin_width j)
      ((centres_of ws bin_width).getD j 0)
      (curve_fn ((centres_of ws bin_width).getD j 0))))

/-! ## Loss breakdown (`loss_analysis.py`) -/

/-- One record as `compute_loss_breakdown` sees it: `timestamp` (in
seconds), possibly-NaN `wind_speed`, `power` and `availability` cells. -/
structure LossRow where
  ts : ℚ
  ws : Option ℚ
  power : Option ℚ
  avail : Option ℚ
deriving DecidableEq

/-- Consecutive timestamp differences,
`df["timestamp"].diff().dt.total_seconds().dropna()`. -/
def ts_diffs : List LossRow → List ℚ
  | a :: b :: rest => (b.ts - a.ts) :: ts_diffs (b :: rest)
  | _ => []

/-- Sorted insertion, ascending. -/
def insert_sorted (x : ℚ) : List ℚ → List ℚ
  | [] => [x]
  | y :: ys => if x ≤ y then x :: y :: ys else y :: insert_sorted x ys

/-- Insertion sort, ascending. -/
def sortQ : List ℚ → List ℚ
  | [] => []
  | x :: xs => insert_sorted x (sortQ xs)

/-- `Series.median`: middle element of the sorted list, or the mean of the
two middle elements for even length; `0` for the empty list (pandas gives
NaN there, unreached: the caller guards `len(df) > 1`). -/
def medianQ (l : List ℚ) : ℚ :=
  if (sortQ l).length = 0 then 0
  else if (sortQ l).length % 2 = 1 then (sortQ l).getD ((sortQ l).length / 2) 0
  else ((sortQ l).getD ((sortQ l).length / 2 - 1) 0 +
    (sortQ l).getD ((sortQ l).length / 2) 0) / 2

/-- `_detect_sample_hours` (loss_analysis.py lines 129–141): median
inter-sample interval in hours, defaulting to 1 h for fewer than two
rows.  The OpenOA `determine_frequency` branch is external; it is
modelled from the spec (§4.1: "infer the dominant interval from the data
directly (e.g., median of consecutive timestamp differences)") by the
same median computation as the in-repo fallback. -/
def detect_sample_hours (rows : List LossRow) : ℚ :=
  if 1 < rows.length then medianQ (ts_diffs rows) / 3600 else 1

/-- `_build_unavailability_mask` (loss_analysis.py lines 144–161):
`True` where the turbine is unavailable.  With an `availability` column:
fill NaN with 1, divide by 100 when the maximum exceeds 1, then compare
`< 0.5`.  Without: `power ≤ 0 AND wind_speed > cut_in` (`false` on NaN,
as in pandas). -/
def build_unavailability_mask (has_availability : Bool) (rows : List LossRow)
    (cut_in_ws : ℚ) : List Bool :=
  if has_availability then
    let filled := rows.map (fun r => r.avail.getD 1)
    let scaled := if filled.any (fun x => decide (1 < x)) then filled.map (fun x => x / 100)
      else filled
    scaled.map (fun a => decide (a < 1 / 2))
  else
    rows.map (fun r =>
      match r.power, r.ws with
      | some p, some w => decide (p ≤ 0 ∧ cut_in_ws < w)
      | _, _ => false)

/-- `_simple_expected_power` (loss_analysis.py lines 191–206): analytic
cubic power curve used when no fitted curve function exists.  The
function's local constant `rated_ws = 12.0` is inlined as the literal 12;
the `np.isfinite` guard has no counterpart over `ℚ` (NaN wind speeds are
handled at the call sites). -/
def simple_expected_power (ws rated_power_kw cut_in_ws cut_out_ws : ℚ) : ℚ :=
  if cut_in_ws ≤ ws ∧ ws ≤ cut_out_ws then
    if ws < 12 then
      clipQ ((ws - cut_in_ws) / (12 - cut_in_ws)) 0 1 ^ 3 * rated_power_kw
    else rated_power_kw
  else 0

/-- Expected power of one record: the fitted curve clipped to
`[0, rated]` (`np.clip` after `np.nan_to_num`), else the analytic cubic
curve; 0 for a NaN wind speed (the curve's NaN output is zeroed by
`nan_to_num`, and `_simple_expected_power` excludes non-finite values). -/
def expected_power_at (curve_fn : Option (ℚ → ℚ)) (rated_power_kw cut_in_ws cut_out_ws : ℚ)
    (wsOpt : Option ℚ) : ℚ :=
  match wsOpt with
  | none => 0
  | some w =>
    match curve_fn with
    | some f => clipQ (f w) 0 rated_power_kw
    | none => simple_expected_power w rated_power_kw cut_in_ws cut_out_ws

/-- `_theoretical_energy` (loss_analysis.py lines 164–188). -/
def theoretical_energy (rows : List LossRow) (rated_power_kw : ℚ)
    (curve_fn : Option (ℚ → ℚ)) (sample_hours cut_in_ws cut_out_ws : ℚ) : ℚ :=
  (rows.map (fun r => expected_power_at curve_fn rated_power_kw cut_in_ws cut_out_ws r.ws)).sum
    * sample_hours

/-- OpenOA's `convert_power_to_energy` summed, as `_operational_energy`
uses it when the library is available.  Modelled from the spec: the
library is external and §4.1 gives the conversion
`energy_kwh = power_kw × sample_hours`; NaN powers contribute nothing
(`Series.sum` skips NaN). -/
def convert_power_to_energy_sum (rows : List LossRow) (sample_hours : ℚ) : ℚ :=
  (rows.map (fun r => r.power.getD 0 * sample_hours)).sum

/-- `_operational_energy` (loss_analysis.py lines 209–220): the OpenOA
conversion when available, otherwise
`df["power"].clip(lower=0).sum() * sample_hours` (NaN skipped by the
sum). -/
def operational_energy (openoa_available : Bool) (rows : List LossRow)
    (sample_hours : ℚ) : ℚ :=
  if openoa_available then convert_power_to_energy_sum rows sample_hours
  else (rows.map (fun r => match r.power with | none => 0 | some p => max p 0)).sum
    * sample_hours

/-- The spec's operational-energy formula (§4.5): sum of
`max(power, 0) × sample_hours` over all records; stated for comparison
with `operational_energy`. -/
def spec_operational_energy (rows : List LossRow) (sample_hours : ℚ) : ℚ :=
  (rows.map (fun r => max (r.power.getD 0) 0 * sample_hours)).sum

/-- `df.loc[unavailable]`: the rows of the unavailable subset. -/
def unavailable_rows (has_availability : Bool) (rows : List LossRow) (cut_in_ws : ℚ) :
    List LossRow :=
  ((rows.zip (build_unavailability_mask has_availability rows cut_in_ws)).filter
    (fun p => p.2)).map Prod.fst

/-- `_downtime_loss` (loss_analysis.py lines 223–249): expected power over
the unavailable subset (note the hard-coded cut-out `25.0` in its
`_simple_expected_power` calls), times sample hours; `0` when the subset
is empty. -/
def downtime_loss (has_availability : Bool) (rows : List LossRow) (rated_power_kw : ℚ)
    (curve_fn : Option (ℚ → ℚ)) (sample_hours cut_in_ws : ℚ) : ℚ :=
  if (unavailable_rows has_availability rows cut_in_ws).length = 0 then 0
  else ((unavailable_rows has_availability rows cut_in_ws).map
    (fun r => expected_power_at curve_fn rated_power_kw cut_in_ws 25 r.ws)).sum
    * sample_hours

/-- `_cutout_loss` (loss_analysis.py lines 252–262):
`count(wind_speed ≥ cut_out) × rated_power × sample_hours`
(NaN wind speeds compare `false`). -/
def cutout_loss (rows : List LossRow) (rated_power_kw sample_hours cut_out_ws : ℚ) : ℚ :=
  ((rows.filter (fun r =>
      match r.ws with
      | some w => decide (cut_out_ws ≤ w)
      | none => false)).length : ℚ) * rated_power_kw * sample_hours

/-- `_missing_data_percent` (loss_analysis.py lines 265–271). -/
def missing_data_percent (rows : List LossRow) : ℚ :=
  if rows.length = 0 then 0
  else ((rows.filter (fun r => r.ws.isNone || r.power.isNone)).length : ℚ)
    / (rows.length : ℚ) * 100

/-- The result record of `compute_loss_breakdown`. -/
structure LossBreakdown where
  downtime_loss_kwh : ℚ
  cutout_loss_kwh : ℚ
  missing_data_percent : ℚ
  operational_energy_kwh : ℚ
  theoretical_energy_kwh : ℚ
deriving DecidableEq

/-- `compute_loss_breakdown` (loss_analysis.py lines 52–122), with the
source's `safe_round(·, 2)` on every field. -/
def compute_loss_breakdown (openoa_available has_availability : Bool)
    (rows : List LossRow) (rated_power_kw : ℚ) (curve_fn : Option (ℚ → ℚ))
    (cut_in_ws cut_out_ws : ℚ) : LossBreakdown :=
  let sample_hours := detect_sample_hours rows
  ⟨safe_round2 (downtime_loss has_availability rows rated_power_kw curve_fn sample_hours
      cut_in_ws),
   safe_round2 (cutout_loss rows rated_power_kw sample_hours cut_out_ws),
   safe_round2 (missing_data_percent rows),
   safe_round2 (operational_energy openoa_available rows sample_hours),
   safe_round2 (theoretical_energy rows rated_power_kw curve_fn sample_hours cut_in_ws
      cut_out_ws)⟩

/-! ## Status distribution (`_compute_status_distribution`) -/

/-- One entry of the status distribution. -/
structure StatusDistEntry where
  status : String
  count : ℕ
  percentage : ℚ
deriving DecidableEq

/-- The status-distribution block. -/
structure StatusDistribution where
  total_records : ℕ
  unique_codes : ℕ
  distribution : List StatusDistEntry
deriving DecidableEq

/-- Insertion step for sorting `(code, count)` pairs by descending count
(`sorted(counts.items(), key=lambda x: -x[1])`, stable). -/
def insert_by_count (x : String × ℕ) : List (String × ℕ) → List (String × ℕ)
  | [] => [x]
  | y :: ys => if y.2 < x.2 then x :: y :: ys else y :: insert_by_count x ys

/-- Stable sort of `(code, count)` pairs by descending count. -/
def sort_by_count_desc : List (String × ℕ) → List (String × ℕ)
  | [] => []
  | x :: xs => insert_by_count x (sort_by_count_desc xs)

/-- `_compute_status_distribution` (analysis.py lines 668–700).  After
`_load_and_clean`'s `astype(str)`, every `turbine_status` cell is a
string, so the source's `dropna()` removes nothing and the input is the
plain column.  Returns `none` exactly when the column is empty
(`if len(status) == 0: return None`). -/
def compute_status_distribution (status_list : List String) : Option StatusDistribution :=
  if status_list.length = 0 then none
  else
    let uniq := status_list.dedup
    let counts := uniq.map (fun c => (c, (status_list.filter (fun s => decide (s = c))).length))
    some ⟨status_list.length, uniq.length,
      (sort_by_count_desc counts).map (fun p =>
        ⟨p.1, p.2, safe_round2 ((p.2 : ℚ) / (status_list.length : ℚ) * 100)⟩)⟩

/-- Presence of the `status_distribution` block in `run_full_analysis`'s
result (analysis.py lines 137–141): the column must exist and
`_compute_status_distribution` must not return `None`. -/
def status_block_present (d : Dataset) : Bool :=
  d.has_turbine_status && (compute_status_distribution (d.rows.map ScadaRow.status)).isSome

/-! ## Helper lemmas -/

theorem mem_insert_sorted {x y : ℚ} {l : List ℚ} (h : y ∈ insert_sorted x l) :
    y = x ∨ y ∈ l := by
  induction l with
  | nil => simpa [insert_sorted] using h
  | cons a t ih =>
    rw [insert_sorted] at h
    split at h
    · exact (List.mem_cons.mp h).imp id id
    · rcases List.mem_cons.mp h with h | h
      · exact Or.inr (List.mem_cons.mpr (Or.inl h))
      · exact (ih h).imp id (fun hy => List.mem_cons.mpr (Or.inr hy))

theorem mem_sortQ {y : ℚ} {l : List ℚ} (h : y ∈ sortQ l) : y ∈ l := by
  induction l with
  | nil => simp [sortQ] at h
  | cons a t ih =>
    rw [sortQ] at h
    rcases mem_insert_sorted h with h | h
    · exact h ▸ List.mem_cons_self a t
    · exact List.mem_cons.mpr (Or.inr (ih h))

theorem getD_mem_of_lt {l : List ℚ} {n : ℕ} (h : n < l.length) (d : ℚ) :
    l.getD n d ∈ l := by
  rw [List.getD_eq_getElem l d h]
  exact List.getElem_mem h

theorem medianQ_nonneg {l : List ℚ} (h : ∀ x ∈ l, 0 ≤ x) : 0 ≤ medianQ l := by
  have hs : ∀ x ∈ sortQ l, 0 ≤ x := fun x hx => h x (mem_sortQ hx)
  unfold medianQ
  split
  · exact le_refl 0
  · rename_i hn0
    split
    · exact hs _ (getD_mem_of_lt (Nat.div_lt_self (Nat.pos_of_ne_zero hn0) one_lt_two) 0)
    · have hpos : 0 < (sortQ l).length := Nat.pos_of_ne_zero hn0
      have h1 : (sortQ l).length / 2 - 1 < (sortQ l).length := by omega
      have h2 : (sortQ l).length / 2 < (sortQ l).length := Nat.div_lt_self hpos one_lt_two
      have := hs _ (getD_mem_of_lt h1 0)
      have := hs _ (getD_mem_of_lt h2 0)
      positivity

theorem ts_diffs_nonneg : ∀ {rows : List LossRow},
    List.Chain' (· ≤ ·) (rows.map LossRow.ts) → ∀ x ∈ ts_diffs rows, 0 ≤ x := by
  intro rows
  induction rows with
  | nil => intro _ x hx; simp [ts_diffs] at hx
  | cons a t ih =>
    cases t with
    | nil => intro _ x hx; simp [ts_diffs] at hx
    | cons b rest =>
      intro hch x hx
      simp only [List.map_cons, List.chain'_cons] at hch
      rw [ts_diffs] at hx
      rcases List.mem_cons.mp hx with rfl | hx
      · linarith [hch.1]
      · exact ih (by simpa using hch.2) x hx

theorem detect_sample_hours_nonneg {rows : List LossRow}
    (h : List.Chain' (· ≤ ·) (rows.map LossRow.ts)) : 0 ≤ detect_sample_hours rows := by
  unfold detect_sample_hours
  split
  · exact div_nonneg (medianQ_nonneg (ts_diffs_nonneg h)) (by norm_num)
  · norm_num

theorem safe_round2_nonneg {x : ℚ} (h : 0 ≤ x) : 0 ≤ safe_round2 x := by
  unfold safe_round2
  apply div_nonneg _ (by norm_num)
  have hr : (0 : ℤ) ≤ round (x * 100) := by
    rw [round_eq]
    exact Int.le_floor.mpr (by push_cast; linarith)
  exact_mod_cast hr

theorem safe_round2_le_100 {x : ℚ} (h : x ≤ 100) : safe_round2 x ≤ 100 := by
  unfold safe_round2
  rw [div_le_iff₀ (by norm_num : (0 : ℚ) < 100)]
  have hr : round (x * 100) ≤ 10000 := by
    rw [round_eq]
    calc ⌊x * 100 + 1 / 2⌋ ≤ ⌊(10000 : ℚ) + 1 / 2⌋ := Int.floor_le_floor (by linarith)
      _ = 10000 := by norm_num [Int.floor_eq_iff]
  calc ((round (x * 100) : ℤ) : ℚ) ≤ ((10000 : ℤ) : ℚ) := by exact_mod_cast hr
    _ = 100 * 100 := by norm_num

theorem clipQ_nonneg {x hi : ℚ} (h : 0 ≤ hi) : 0 ≤ clipQ x 0 hi :=
  le_min (le_max_right x 0) h

theorem simple_expected_power_nonneg {ws rated ci co : ℚ} (h : 0 ≤ rated) :
    0 ≤ simple_expected_power ws rated ci co := by
  unfold simple_expected_power
  split
  · split
    · exact mul_nonneg (pow_nonneg (clipQ_nonneg (by norm_num)) 3) h
    · exact h
  · exact le_refl 0

theorem expected_power_at_nonneg {curve : Option (ℚ → ℚ)} {rated ci co : ℚ}
    (h : 0 ≤ rated) (wsOpt : Option ℚ) :
    0 ≤ expected_power_at curve rated ci co wsOpt := by
  cases wsOpt with
  | none => simp [expected_power_at]
  | some w =>
    cases curve with
    | none => exact simple_expected_power_nonneg h
    | some f => exact clipQ_nonneg h


theorem mem_drop_flagged {rows : List ScadaRow} {combined : List Bool}
    (hlen : combined.length = rows.length) (r : ScadaRow) :
    r ∈ drop_flagged rows combined ↔
      ∃ i : ℕ, rows[i]? = some r ∧ combined[i]? = some false := by
  induction rows generalizing combined with
  | nil =>
    obtain rfl := List.length_eq_zero.mp hlen
    simp [drop_flagged]
  | cons a t ih =>
    cases combined with
    | nil => simp at hlen
    | cons b cb =>
      have hlen' : cb.length = t.length := by simpa using hlen
      have hsplit : (∃ i : ℕ, (a :: t)[i]? = some r ∧ (b :: cb)[i]? = some false) ↔
          ((a = r ∧ b = false) ∨ ∃ i : ℕ, t[i]? = some r ∧ cb[i]? = some false) := by
        constructor
        · rintro ⟨i, hr2, hc2⟩
          cases i with
          | zero =>
            simp only [List.getElem?_cons_zero, Option.some.injEq] at hr2 hc2
            exact Or.inl ⟨hr2, hc2⟩
          | succ n =>
            simp only [List.getElem?_cons_succ] at hr2 hc2
            exact Or.inr ⟨n, hr2, hc2⟩
        · rintro (⟨rfl, rfl⟩ | ⟨i, hr2, hc2⟩)
          · exact ⟨0, by simp⟩
          · exact ⟨i + 1, by simpa using hr2, by simpa using hc2⟩
      rw [hsplit]
      cases b with
      | false =>
        have hdf : drop_flagged (a :: t) (false :: cb) = a :: drop_flagged t cb := by
          simp [drop_flagged]
        rw [hdf, List.mem_cons, ih hlen']
        constructor
        · rintro (rfl | h)
          · exact Or.inl ⟨rfl, rfl⟩
          · exact Or.inr h
        · rintro (⟨rfl, _⟩ | h)
          · exact Or.inl rfl
          · exact Or.inr h
      | true =>
        have hdf : drop_flagged (a :: t) (true :: cb) = drop_flagged t cb := by
          simp [drop_flagged]
        rw [hdf, ih hlen']
        constructor
        · exact fun h => Or.inr h
        · rintro (⟨_, hfalse⟩ | h)
          · exact absurd hfalse (by simp)
          · exact h

theorem combined_flags_length :
    ∀ (l1 l2 l3 l4 l5 l6 : List Bool),
      l2.length = l1.length → l3.length = l1.length → l4.length = l1.length →
      l5.length = l1.length → l6.length = l1.length →
      (combined_flags l1 l2 l3 l4 l5 l6).length = l1.length := by
  intro l1
  induction l1 with
  | nil =>
    intro l2 l3 l4 l5 l6 h2 h3 h4 h5 h6
    obtain rfl := List.length_eq_zero.mp h2
    obtain rfl := List.length_eq_zero.mp h3
    obtain rfl := List.length_eq_zero.mp h4
    obtain rfl := List.length_eq_zero.mp h5
    obtain rfl := List.length_eq_zero.mp h6
    rfl
  | cons a t1 ih =>
    intro l2 l3 l4 l5 l6 h2 h3 h4 h5 h6
    cases l2 with | nil => simp at h2 | cons b t2 =>
    cases l3 with | nil => simp at h3 | cons c t3 =>
    cases l4 with | nil => simp at h4 | cons d t4 =>
    cases l5 with | nil => simp at h5 | cons e t5 =>
    cases l6 with | nil => simp at h6 | cons f t6 =>
    rw [combined_flags]
    simp only [List.length_cons] at h2 h3 h4 h5 h6 ⊢
    rw [ih t2 t3 t4 t5 t6 (by omega) (by omega) (by omega) (by omega) (by omega)]

theorem combined_flags_get :
    ∀ (l1 l2 l3 l4 l5 l6 : List Bool),
      l2.length = l1.length → l3.length = l1.length → l4.length = l1.length →
      l5.length = l1.length → l6.length = l1.length →
      ∀ i : ℕ, (combined_flags l1 l2 l3 l4 l5 l6)[i]? = some false ↔
        (l1[i]? = some false ∧ l2[i]? = some false ∧ l3[i]? = some false ∧
         l4[i]? = some false ∧ l5[i]? = some false ∧ l6[i]? = some false) := by
  intro l1
  induction l1 with
  | nil =>
    intro l2 l3 l4 l5 l6 h2 h3 h4 h5 h6 i
    obtain rfl := List.length_eq_zero.mp h2
    obtain rfl := List.length_eq_zero.mp h3
    obtain rfl := List.length_eq_zero.mp h4
    obtain rfl := List.length_eq_zero.mp h5
    obtain rfl := List.length_eq_zero.mp h6
    simp [combined_flags]
  | cons a t1 ih =>
    intro l2 l3 l4 l5 l6 h2 h3 h4 h5 h6 i
    cases l2 with | nil => simp at h2 | cons b t2 =>
    cases l3 with | nil => simp at h3 | cons c t3 =>
    cases l4 with | nil => simp at h4 | cons d t4 =>
    cases l5 with | nil => simp at h5 | cons e t5 =>
    cases l6 with | nil => simp at h6 | cons f t6 =>
    simp only [List.length_cons] at h2 h3 h4 h5 h6
    rw [combined_flags]
    cases i with
    | zero =>
      simp only [List.getElem?_cons_zero, Option.some.injEq]
      constructor
      · intro h
        have h6' := Bool.or_eq_false_iff.mp h
        have h5' := Bool.or_eq_false_iff.mp h6'.1
        have h4' := Bool.or_eq_false_iff.mp h5'.1
        have h3' := Bool.or_eq_false_iff.mp h4'.1
        have h2' := Bool.or_eq_false_iff.mp h3'.1
        exact ⟨h2'.1, h2'.2, h3'.2, h4'.2, h5'.2, h6'.2⟩
      · rintro ⟨ha, hb, hc, hd, he, hf⟩
        subst ha hb hc hd he hf
        rfl
    | succ n =>
      simp only [List.getElem?_cons_succ]
      exact ih t2 t3 t4 t5 t6 (by omega) (by omega) (by omega) (by omega) (by omega) n

theorem safe_round2_zero : safe_round2 0 = 0 := by
  rw [safe_round2, show ((0 : ℚ) * 100) = ((0 : ℤ) : ℚ) from by norm_num, round_intCast]
  norm_num

theorem listMaxQ_ones : listMaxQ [1, 1, 1] = 1 := by norm_num [listMaxQ]

theorem bins_of_ones : bins_of [1, 1, 1] 2 = [0, 2] := by
  have hc : (⌈(listMaxQ [1, 1, 1] + 2) / 2⌉ : ℤ) = 2 := by
    rw [listMaxQ_ones, Int.ceil_eq_iff]
    norm_num
  rw [bins_of, arangeQ, if_pos (⟨by norm_num, by rw [listMaxQ_ones]; norm_num⟩ :
    (0 : ℚ) < 2 ∧ (0 : ℚ) < listMaxQ [1, 1, 1] + 2), hc]
  rw [show List.range (Int.toNat 2) = [0, 1] from rfl]
  norm_num [List.map_cons]

theorem centres_of_ones : centres_of [1, 1, 1] 2 = [1] := by
  rw [centres_of, bins_of_ones]
  norm_num [List.dropLast]

theorem digitize_one : digitize 1 [0, 2] = 1 := by
  norm_num [digitize, List.filter_cons]

theorem bin_powers_ones (p1 p2 p3 : ℚ) :
    bin_powers_at [1, 1, 1] [p1, p2, p3] 2 0 = [p1, p2, p3] := by
  rw [bin_powers_at, bins_of_ones]
  norm_num [List.filter_cons, digitize_one]

theorem manual_iec_binning_ones (p1 p2 p3 : ℚ) :
    manual_iec_binning [1, 1, 1] [p1, p2, p3] 2 =
      [mk_bin_stats [p1, p2, p3] 1 (meanQ [p1, p2, p3])] := by
  rw [manual_iec_binning, centres_of_ones]
  rw [show List.range ([1] : List ℚ).length = [0] from rfl]
  simp only [List.filterMap_cons, List.filterMap_nil, bin_powers_ones]
  rw [if_neg (by norm_num)]
  norm_num [List.getD]

theorem openoa_iec_curve_ones (f : ℚ → ℚ) (p1 p2 p3 : ℚ) :
    openoa_iec_curve f [1, 1, 1] [p1, p2, p3] 2 =
      [mk_bin_stats [p1, p2, p3] 1 (f 1)] := by
  rw [openoa_iec_curve, centres_of_ones]
  rw [show List.range ([1] : List ℚ).length = [0] from rfl]
  simp only [List.filterMap_cons, List.filterMap_nil, bin_powers_ones]
  rw [if_neg (by norm_num)]
  norm_num [List.getD]

/-! ## Claim theorems -/

/-- **C7** (counterexample): the spec claims `method` is the string
`"full"` when the high-fidelity path runs; the code produces `"openoa"`
instead (analysis.py line 107), so the claim fails whenever OpenOA is
available. -/
theorem C7_counterexample : method_field true ≠ "full" ∧ method_field true = "openoa" := by
  constructor <;> decide

/-- **C7** (amended): the `method` field is `"openoa"` (not `"full"`)
exactly when the OpenOA library imported successfully, `"fallback"`
otherwise; no other value is produced. -/
theorem C7_method_values (b : Bool) :
    (method_field b = "openoa" ∨ method_field b = "fallback") ∧
    (method_field b = "openoa" ↔ b = true) ∧
    (method_field b = "fallback" ↔ b = false) := by
  cases b <;> simp [method_field]

/-- **C4** (confirmed): with the default cut-in 3 m/s, cut-out 25 m/s and
rated wind speed 12 m/s, the analytic cubic fallback of
`_simple_expected_power` is 0 below cut-in and above cut-out, the full
rated power between rated speed and cut-out, and
`rated × ((ws − cut_in)/(rated_ws − cut_in))³` between cut-in and rated
speed. -/
theorem C4_simple_expected_power_cases (ws rated : ℚ) :
    (ws < DEFAULT_CUT_IN_WS →
      simple_expected_power ws rated DEFAULT_CUT_IN_WS DEFAULT_CUT_OUT_WS = 0) ∧
    (DEFAULT_CUT_OUT_WS < ws →
      simple_expected_power ws rated DEFAULT_CUT_IN_WS DEFAULT_CUT_OUT_WS = 0) ∧
    (DEFAULT_RATED_WS ≤ ws → ws ≤ DEFAULT_CUT_OUT_WS →
      simple_expected_power ws rated DEFAULT_CUT_IN_WS DEFAULT_CUT_OUT_WS = rated) ∧
    (DEFAULT_CUT_IN_WS ≤ ws → ws < DEFAULT_RATED_WS →
      simple_expected_power ws rated DEFAULT_CUT_IN_WS DEFAULT_CUT_OUT_WS =
        rated * ((ws - DEFAULT_CUT_IN_WS) / (DEFAULT_RATED_WS - DEFAULT_CUT_IN_WS)) ^ 3) := by
  unfold DEFAULT_CUT_IN_WS DEFAULT_CUT_OUT_WS DEFAULT_RATED_WS
  refine ⟨?_, ?_, ?_, ?_⟩
  · intro h
    rw [simple_expected_power, if_neg (by push_neg; intro h3; linarith)]
  · intro h
    rw [simple_expected_power, if_neg (by push_neg; intro h3; linarith)]
  · intro h1 h2
    rw [simple_expected_power, if_pos ⟨by linarith, h2⟩, if_neg (by linarith)]
  · intro h1 h2
    rw [simple_expected_power, if_pos ⟨h1, by linarith⟩, if_pos (by linarith)]
    have h0 : (0 : ℚ) ≤ (ws - 3) / (12 - 3) := by
      apply div_nonneg <;> linarith
    have hle : (ws - 3) / (12 - 3) ≤ 1 := by
      rw [div_le_one (by norm_num : (0 : ℚ) < 12 - 3)]
      linarith
    have hcl : clipQ ((ws - 3) / (12 - 3)) 0 1 = (ws - 3) / (12 - 3) := by
      unfold clipQ
      rw [max_eq_left h0, min_eq_left hle]
    rw [hcl]
    ring

/-- **C4** (witness): at wind speed 6 m/s and rated power 2000 kW the
cubic branch applies. -/
theorem C4_witness :
    DEFAULT_CUT_IN_WS ≤ 6 ∧ (6 : ℚ) < DEFAULT_RATED_WS ∧
    simple_expected_power 6 2000 DEFAULT_CUT_IN_WS DEFAULT_CUT_OUT_WS =
      2000 * ((6 - DEFAULT_CUT_IN_WS) / (DEFAULT_RATED_WS - DEFAULT_CUT_IN_WS)) ^ 3 :=
  ⟨by norm_num [DEFAULT_CUT_IN_WS], by norm_num [DEFAULT_RATED_WS],
   (C4_simple_expected_power_cases 6 2000).2.2.2 (by norm_num [DEFAULT_CUT_IN_WS])
     (by norm_num [DEFAULT_RATED_WS])⟩

/-- **C5** (counterexample): when OpenOA is available `_operational_energy`
uses `convert_power_to_energy`, which does not clip negative power; a
single record with power −10 kW and 1 h sampling yields −10 kWh, while
the claimed formula `Σ max(power, 0) × sample_hours` yields 0. -/
theorem C5_counterexample :
    operational_energy true [⟨0, some 5, some (-10), none⟩] 1 = -10 ∧
    spec_operational_energy [⟨0, some 5, some (-10), none⟩] 1 = 0 ∧
    operational_energy true [⟨0, some 5, some (-10), none⟩] 1 ≠
      spec_operational_energy [⟨0, some 5, some (-10), none⟩] 1 := by
  refine ⟨?_, ?_, ?_⟩ <;>
    norm_num [operational_energy, spec_operational_energy, convert_power_to_energy_sum]

/-- **C5** (amended): the fallback branch of `_operational_energy` (OpenOA
unavailable, or its conversion failing) equals the spec's
`Σ max(power, 0) × sample_hours`; the OpenOA branch instead sums
`power × sample_hours` without clipping, so negative (parasitic) power
subtracts from operational energy. -/
theorem C5_operational_energy_modes (rows : List LossRow) (sample_hours : ℚ) :
    operational_energy false rows sample_hours = spec_operational_energy rows sample_hours ∧
    operational_energy true rows sample_hours =
      convert_power_to_energy_sum rows sample_hours := by
  constructor
  · unfold operational_energy spec_operational_energy
    rw [if_neg (by simp)]
    rw [← List.sum_map_mul_right]
    apply congrArg
    apply List.map_congr_left
    intro r _
    cases hp : r.power <;> simp
  · rfl

/-- **C2** (counterexample): an explicit availability column containing the
raw value 200 (a percentage above 100) resolves to 2, outside `[0, 1]`,
so the claimed invariant fails for such datasets. -/
theorem C2_counterexample :
    resolve_availability ⟨true, false, [⟨5, 100, some 200, "x"⟩]⟩ = [2] ∧
    ¬ ((2 : ℚ) ≤ 1) := by
  constructor
  · norm_num [resolve_availability, availability_filled]
  · norm_num

/-- **C2** (amended): every value produced by `_resolve_availability` lies
in `[0, 1]` *provided* every non-missing value of an explicit availability
column lies in `[0, 100]` (missing cells are filled with 1); the status
and inference branches always produce values in `{0, 1}`.  Without that
proviso the invariant fails (see the counterexample: a value above 100
scales to above 1, and a negative value in an otherwise ≤ 1 column stays
negative). -/
theorem C2_availability_in_unit_interval (d : Dataset)
    (hb : ∀ r ∈ d.rows, 0 ≤ r.avail.getD 1 ∧ r.avail.getD 1 ≤ 100) :
    ∀ v ∈ resolve_availability d, 0 ≤ v ∧ v ≤ 1 := by
  intro v hv
  unfold resolve_availability at hv
  have hfb : ∀ x ∈ availability_filled d.rows, 0 ≤ x ∧ x ≤ 100 := by
    intro x hx
    obtain ⟨r, hr, rfl⟩ := List.mem_map.mp hx
    exact hb r hr
  by_cases ha : d.has_availability = true
  · rw [if_pos ha] at hv
    by_cases hany :
        (availability_filled d.rows).any (fun x => decide (1 < x)) = true
    · rw [if_pos hany] at hv
      obtain ⟨x, hx, rfl⟩ := List.mem_map.mp hv
      obtain ⟨h0, h100⟩ := hfb x hx
      constructor
      · positivity
      · rw [div_le_one (by norm_num)]
        exact h100
    · rw [if_neg hany] at hv
      refine ⟨(hfb v hv).1, ?_⟩
      by_contra hgt
      exact hany (List.any_eq_true.mpr ⟨v, hv, by simpa using lt_of_not_le hgt⟩)
  · rw [if_neg ha] at hv
    by_cases hs : d.has_turbine_status = true
    · rw [if_pos hs] at hv
      obtain ⟨r, _, rfl⟩ := List.mem_map.mp hv
      split <;> norm_num
    · rw [if_neg hs] at hv
      obtain ⟨r, _, rfl⟩ := List.mem_map.mp hv
      split <;> norm_num

/-- **C2** (witness): a dataset whose availability values are the in-range
50 and a missing cell resolves inside `[0, 1]`. -/
theorem C2_witness :
    (∀ r ∈ (⟨true, false, [⟨5, 100, some 50, "x"⟩, ⟨6, 200, none, "y"⟩]⟩ : Dataset).rows,
      0 ≤ r.avail.getD 1 ∧ r.avail.getD 1 ≤ 100) ∧
    ∀ v ∈ resolve_availability ⟨true, false, [⟨5, 100, some 50, "x"⟩, ⟨6, 200, none, "y"⟩]⟩,
      0 ≤ v ∧ v ≤ 1 :=
  ⟨by decide,
   C2_availability_in_unit_interval
     ⟨true, false, [⟨5, 100, some 50, "x"⟩, ⟨6, 200, none, "y"⟩]⟩ (by decide)⟩

/-- **C6** (confirmed): `_resolve_availability`'s priority order.
1. With an explicit availability column, the result depends only on that
   column (two datasets with the same availability cells resolve
   identically, whatever their `turbine_status` contents);
2. with only `turbine_status`, availability is 1 exactly for the
   case-insensitive whitelist `1, 1.0, normal, run, running, ok`
   (the code lower-cases each cell before the membership test), else 0;
3. with neither, availability is 0 exactly when
   `power ≤ 0 ∧ wind_speed > 3`. -/
theorem C6_availability_priority (d d' : Dataset) :
    (d.has_availability = true → d'.has_availability = true →
      d.rows.map ScadaRow.avail = d'.rows.map ScadaRow.avail →
      resolve_availability d = resolve_availability d') ∧
    (d.has_availability = false → d.has_turbine_status = true →
      resolve_availability d =
        d.rows.map (fun r => if r.status.toLower ∈ normal_codes then (1 : ℚ) else 0)) ∧
    (d.has_availability = false → d.has_turbine_status = false →
      resolve_availability d =
        d.rows.map (fun r =>
          if r.power ≤ 0 ∧ DEFAULT_CUT_IN_WS < r.ws then (0 : ℚ) else 1)) := by
  refine ⟨?_, ?_, ?_⟩
  · intro h1 h2 hmap
    have hfill : availability_filled d.rows = availability_filled d'.rows := by
      unfold availability_filled
      have hc : (fun r : ScadaRow => r.avail.getD 1) =
          (fun o : Option ℚ => o.getD 1) ∘ ScadaRow.avail := rfl
      rw [hc, ← List.map_map, hmap, List.map_map]
    unfold resolve_availability
    rw [if_pos h1, if_pos h2, hfill]
  · intro h1 h2
    unfold resolve_availability
    rw [if_neg (by simp [h1]), if_pos h2]
  · intro h1 h2
    unfold resolve_availability
    rw [if_neg (by simp [h1]), if_neg (by simp [h2])]

/-- **C6** (witness): two datasets with identical availability cells but
different `turbine_status` contents resolve identically. -/
theorem C6_witness :
    (⟨true, false, [⟨5, 100, some (1/2), "a"⟩]⟩ : Dataset).has_availability = true ∧
    resolve_availability ⟨true, false, [⟨5, 100, some (1/2), "a"⟩]⟩ =
      resolve_availability ⟨true, true, [⟨6, 200, some (1/2), "stop"⟩]⟩ :=
  ⟨rfl,
   (C6_availability_priority ⟨true, false, [⟨5, 100, some (1/2), "a"⟩]⟩
     ⟨true, true, [⟨6, 200, some (1/2), "stop"⟩]⟩).1 rfl rfl rfl⟩

/-- **C9** (counterexample): a dataset whose `turbine_status` column has a
single valid value still gets a `status_distribution` block
(`_compute_status_distribution` only returns `None` for an *empty*
column, not for fewer than 10 values), contradicting the claimed ≥ 10
threshold. -/
theorem C9_counterexample :
    status_block_present ⟨false, true, [⟨5, 100, none, "1"⟩]⟩ = true ∧
    ((⟨false, true, [⟨5, 100, none, "1"⟩]⟩ : Dataset).rows.map ScadaRow.status).length < 10 :=
  ⟨by decide, by decide⟩

/-- **C9** (amended): the `status_distribution` block is present iff the
`turbine_status` column is supplied and the cleaned dataset is nonempty —
one valid value suffices; the ≥ 10 threshold of the spec applies to the
temperature/pitch/yaw blocks, not to the status distribution.  (After
`_load_and_clean`'s `astype(str)` every cell is a string, so no cell is
missing.) -/
theorem C9_status_block_iff (d : Dataset) :
    status_block_present d = true ↔ d.has_turbine_status = true ∧ d.rows ≠ [] := by
  unfold status_block_present compute_status_distribution
  rw [Bool.and_eq_true]
  constructor
  · rintro ⟨h1, h2⟩
    refine ⟨h1, fun hnil => ?_⟩
    rw [hnil] at h2
    simp at h2
  · rintro ⟨h1, h2⟩
    refine ⟨h1, ?_⟩
    rw [if_neg (by simp [List.length_eq_zero, h2])]
    rfl

/-- **C1** (confirmed): in `_openoa_filter_pipeline` a record is removed iff
at least one stage flag is true for it — OR semantics, no weighting.  The
four spec stages map onto the six flag columns as range =
`ws_range ∨ pw_range`, stuck = `ws_stuck ∨ pw_stuck`, contextual =
`low_ws_high_pw`, outlier = `pc_outlier`; a record (by position `i`)
survives iff all six columns — equivalently all four stage flags — are
false at `i`.  The stage computations themselves are OpenOA library calls
and are universally quantified. -/
theorem C1_filter_or_semantics
    (ws_range pw_range ws_stuck pw_stuck low_ws_high_pw pc_outlier :
      List ScadaRow → List Bool)
    (df : List ScadaRow)
    (h1 : (ws_range df).length = df.length) (h2 : (pw_range df).length = df.length)
    (h3 : (ws_stuck df).length = df.length) (h4 : (pw_stuck df).length = df.length)
    (h5 : (low_ws_high_pw df).length = df.length) (h6 : (pc_outlier df).length = df.length)
    (r : ScadaRow) :
    r ∈ openoa_filter_pipeline ws_range pw_range ws_stuck pw_stuck low_ws_high_pw
        pc_outlier df ↔
      ∃ i : ℕ, df[i]? = some r ∧
        (ws_range df)[i]? = some false ∧ (pw_range df)[i]? = some false ∧
        (ws_stuck df)[i]? = some false ∧ (pw_stuck df)[i]? = some false ∧
        (low_ws_high_pw df)[i]? = some false ∧ (pc_outlier df)[i]? = some false := by
  unfold openoa_filter_pipeline
  rw [mem_drop_flagged (by
    rw [combined_flags_length (ws_range df) (pw_range df) (ws_stuck df) (pw_stuck df)
      (low_ws_high_pw df) (pc_outlier df) (h2.trans h1.symm) (h3.trans h1.symm)
      (h4.trans h1.symm) (h5.trans h1.symm) (h6.trans h1.symm), h1])]
  refine exists_congr fun i => ?_
  rw [combined_flags_get (ws_range df) (pw_range df) (ws_stuck df) (pw_stuck df)
    (low_ws_high_pw df) (pc_outlier df) (h2.trans h1.symm) (h3.trans h1.symm)
    (h4.trans h1.symm) (h5.trans h1.symm) (h6.trans h1.symm) i]

/-- **C1** (witness): a two-row frame where only the second row is flagged
(by the wind-speed range stage); the characterisation applies. -/
theorem C1_witness :
    (⟨5, 100, none, "ok"⟩ : ScadaRow) ∈
      openoa_filter_pipeline (fun _ => [false, true]) (fun _ => [false, false])
        (fun _ => [false, false]) (fun _ => [false, false]) (fun _ => [false, false])
        (fun _ => [false, false]) [⟨5, 100, none, "ok"⟩, ⟨9, 900, none, "x"⟩] ↔
      ∃ i : ℕ, ([⟨5, 100, none, "ok"⟩, ⟨9, 900, none, "x"⟩] : List ScadaRow)[i]? =
          some ⟨5, 100, none, "ok"⟩ ∧
        ([false, true] : List Bool)[i]? = some false ∧
        ([false, false] : List Bool)[i]? = some false ∧
        ([false, false] : List Bool)[i]? = some false ∧
        ([false, false] : List Bool)[i]? = some false ∧
        ([false, false] : List Bool)[i]? = some false ∧
        ([false, false] : List Bool)[i]? = some false :=
  C1_filter_or_semantics (fun _ => [false, true]) (fun _ => [false, false])
    (fun _ => [false, false]) (fun _ => [false, false]) (fun _ => [false, false])
    (fun _ => [false, false]) [⟨5, 100, none, "ok"⟩, ⟨9, 900, none, "x"⟩]
    rfl rfl rfl rfl rfl rfl ⟨5, 100, none, "ok"⟩

/-- **C3** (confirmed): every bin emitted by either binning path has
`count ≥ 3`; bins with fewer samples are skipped
(`if count < 3: continue`), not reported or interpolated. -/
theorem C3_min_bin_count (ws pw : List ℚ) (bin_width : ℚ) (curve_fn : ℚ → ℚ) :
    (∀ b ∈ manual_iec_binning ws pw bin_width, 3 ≤ b.count) ∧
    (∀ b ∈ openoa_iec_curve curve_fn ws pw bin_width, 3 ≤ b.count) := by
  constructor <;>
  · intro b hb
    simp only [manual_iec_binning, openoa_iec_curve] at hb
    obtain ⟨j, _, hj⟩ := List.mem_filterMap.mp hb
    by_cases hcnt : (bin_powers_at ws pw bin_width j).length < 3
    · rw [if_pos hcnt] at hj
      exact absurd hj (by simp)
    · rw [if_neg hcnt] at hj
      have hb2 : b.count = (bin_powers_at ws pw bin_width j).length := by
        rw [← Option.some.inj hj]
        rfl
      omega

/-- **C3** (witness): a concrete three-sample bin is emitted and has
`count ≥ 3`. -/
theorem C3_witness :
    (⟨1, 5, 6, 3, 4802 / 625, 0, 6⟩ : PowerCurveBin) ∈
      openoa_iec_curve (fun _ => 5) [1, 1, 1] [0, 3, 6] 2 ∧
    3 ≤ (⟨1, 5, 6, 3, 4802 / 625, 0, 6⟩ : PowerCurveBin).count := by
  have hmem : (⟨1, 5, 6, 3, 4802 / 625, 0, 6⟩ : PowerCurveBin) ∈
      openoa_iec_curve (fun _ => 5) [1, 1, 1] [0, 3, 6] 2 := by
    rw [openoa_iec_curve_ones]
    norm_num [mk_bin_stats, meanQ, popVarQ, listMinQ, listMaxQ]
  exact ⟨hmem, (C3_min_bin_count [1, 1, 1] [0, 3, 6] 2 (fun _ => 5)).2 _ hmem⟩

/-- **C8** (counterexample): the claim says `std_power` is the *sample*
standard deviation, but `pw[mask].std()` is numpy's default `ddof=0`
(population) standard deviation.  For the bin with powers `[0, 3, 6]` the
code stores `std² = 6` (divisor 3) while the sample variance is 9
(divisor 2); since both standard deviations are nonnegative and squaring
is injective on nonnegatives, the reported `std_power = √6` differs from
the sample standard deviation `√9 = 3`. -/
theorem C8_counterexample :
    manual_iec_binning [1, 1, 1] [0, 3, 6] 2 = [⟨1, 3, 6, 3, 4802 / 625, 0, 6⟩] ∧
    sampleVarQ [0, 3, 6] = 9 ∧ (6 : ℚ) ≠ 9 := by
  refine ⟨?_, by norm_num [sampleVarQ, meanQ], by norm_num⟩
  rw [manual_iec_binning_ones]
  norm_num [mk_bin_stats, meanQ, popVarQ, listMinQ, listMaxQ]

/-- **C8** (amended): for every emitted bin (count ≥ 3), `std_power` is the
*population* standard deviation of the bin's power values (numpy `ddof=0`,
divisor `n`), not the sample standard deviation, and the 95% half-width
satisfies `ci² × count = 1.96² × std²` — i.e. `ci = 1.96 × std/√count`,
with `ci_lower/ci_upper = mean ∓ ci`; the bin's mean is the raw bin mean
on the manual path and the fitted curve's value at the bin centre on the
OpenOA path, and min/max are the raw extremes.  (Stated on squares since
√ leaves `ℚ`; both sides are nonnegative, so this determines std and ci.) -/
theorem C8_bin_statistics (ws pw : List ℚ) (bin_width : ℚ) (curve_fn : ℚ → ℚ) :
    (∀ b ∈ manual_iec_binning ws pw bin_width, ∃ j : ℕ,
      3 ≤ (bin_powers_at ws pw bin_width j).length ∧
      b.count = (bin_powers_at ws pw bin_width j).length ∧
      b.mean_power = meanQ (bin_powers_at ws pw bin_width j) ∧
      b.std_sq_power = popVarQ (bin_powers_at ws pw bin_width j) ∧
      b.ci_half_sq * (b.count : ℚ) =
        (49 / 25) ^ 2 * popVarQ (bin_powers_at ws pw bin_width j) ∧
      b.min_power = listMinQ (bin_powers_at ws pw bin_width j) ∧
      b.max_power = listMaxQ (bin_powers_at ws pw bin_width j)) ∧
    (∀ b ∈ openoa_iec_curve curve_fn ws pw bin_width, ∃ j : ℕ,
      3 ≤ (bin_powers_at ws pw bin_width j).length ∧
      b.count = (bin_powers_at ws pw bin_width j).length ∧
      b.mean_power = curve_fn ((centres_of ws bin_width).getD j 0) ∧
      b.std_sq_power = popVarQ (bin_powers_at ws pw bin_width j) ∧
      b.ci_half_sq * (b.count : ℚ) =
        (49 / 25) ^ 2 * popVarQ (bin_powers_at ws pw bin_width j) ∧
      b.min_power = listMinQ (bin_powers_at ws pw bin_width j) ∧
      b.max_power = listMaxQ (bin_powers_at ws pw bin_width j)) := by
  constructor <;>
  · intro b hb
    simp only [manual_iec_binning, openoa_iec_curve] at hb
    obtain ⟨j, _, hj⟩ := List.mem_filterMap.mp hb
    refine ⟨j, ?_⟩
    by_cases hcnt : (bin_powers_at ws pw bin_width j).length < 3
    · rw [if_pos hcnt] at hj
      exact absurd hj (by simp)
    · rw [if_neg hcnt] at hj
      obtain rfl := Option.some.inj hj
      have hlen : 3 ≤ (bin_powers_at ws pw bin_width j).length := by omega
      have h1 : 1 < (bin_powers_at ws pw bin_width j).length := by omega
      have hne : ((bin_powers_at ws pw bin_width j).length : ℚ) ≠ 0 :=
        Nat.cast_ne_zero.mpr (by omega)
      refine ⟨hlen, rfl, rfl, ?_, ?_, rfl, rfl⟩
      · simp only [mk_bin_stats]
        rw [if_pos h1]
      · simp only [mk_bin_stats]
        rw [if_pos h1]
        field_simp
        ring

/-- **C8** (witness): a concrete constant bin `[2, 2, 2]` realises the
amended statistics (variance 0, zero half-width). -/
theorem C8_witness :
    (⟨1, 2, 0, 3, 0, 2, 2⟩ : PowerCurveBin) ∈ manual_iec_binning [1, 1, 1] [2, 2, 2] 2 ∧
    ∃ j : ℕ,
      3 ≤ (bin_powers_at [1, 1, 1] [2, 2, 2] 2 j).length ∧
      (⟨1, 2, 0, 3, 0, 2, 2⟩ : PowerCurveBin).count =
        (bin_powers_at [1, 1, 1] [2, 2, 2] 2 j).length ∧
      (⟨1, 2, 0, 3, 0, 2, 2⟩ : PowerCurveBin).mean_power =
        meanQ (bin_powers_at [1, 1, 1] [2, 2, 2] 2 j) ∧
      (⟨1, 2, 0, 3, 0, 2, 2⟩ : PowerCurveBin).std_sq_power =
        popVarQ (bin_powers_at [1, 1, 1] [2, 2, 2] 2 j) ∧
      (⟨1, 2, 0, 3, 0, 2, 2⟩ : PowerCurveBin).ci_half_sq *
          ((⟨1, 2, 0, 3, 0, 2, 2⟩ : PowerCurveBin).count : ℚ) =
        (49 / 25) ^ 2 * popVarQ (bin_powers_at [1, 1, 1] [2, 2, 2] 2 j) ∧
      (⟨1, 2, 0, 3, 0, 2, 2⟩ : PowerCurveBin).min_power =
        listMinQ (bin_powers_at [1, 1, 1] [2, 2, 2] 2 j) ∧
      (⟨1, 2, 0, 3, 0, 2, 2⟩ : PowerCurveBin).max_power =
        listMaxQ (bin_powers_at [1, 1, 1] [2, 2, 2] 2 j) := by
  have hmem : (⟨1, 2, 0, 3, 0, 2, 2⟩ : PowerCurveBin) ∈
      manual_iec_binning [1, 1, 1] [2, 2, 2] 2 := by
    rw [manual_iec_binning_ones]
    norm_num [mk_bin_stats, meanQ, popVarQ, listMinQ, listMaxQ]
  exact ⟨hmem, (C8_bin_statistics [1, 1, 1] [2, 2, 2] 2 (fun _ => 0)).1 _ hmem⟩

/-- **C10** (amended): for sorted timestamps and `rated_power_kw ≥ 0`,
every field of the loss breakdown except the OpenOA-mode operational
energy is nonnegative — `downtime_loss_kwh ≥ 0`, `cutout_loss_kwh ≥ 0`,
`theoretical_energy_kwh ≥ 0`, `missing_data_percent ∈ [0, 100]` (0 on an
empty dataset) — and `operational_energy_kwh ≥ 0` holds when the fallback
power-to-energy conversion runs (OpenOA unavailable).  In OpenOA mode
negative parasitic power can make operational energy negative (see the
counterexample), which is the one part of the claim the code violates. -/
theorem C10_loss_breakdown_nonneg (openoa_available has_availability : Bool)
    (rows : List LossRow) (rated_power_kw : ℚ) (curve_fn : Option (ℚ → ℚ))
    (cut_in_ws cut_out_ws : ℚ)
    (hsort : List.Chain' (· ≤ ·) (rows.map LossRow.ts))
    (hrated : 0 ≤ rated_power_kw) :
    0 ≤ (compute_loss_breakdown openoa_available has_availability rows rated_power_kw
        curve_fn cut_in_ws cut_out_ws).downtime_loss_kwh ∧
    0 ≤ (compute_loss_breakdown openoa_available has_availability rows rated_power_kw
        curve_fn cut_in_ws cut_out_ws).cutout_loss_kwh ∧
    0 ≤ (compute_loss_breakdown openoa_available has_availability rows rated_power_kw
        curve_fn cut_in_ws cut_out_ws).theoretical_energy_kwh ∧
    (0 ≤ (compute_loss_breakdown openoa_available has_availability rows rated_power_kw
        curve_fn cut_in_ws cut_out_ws).missing_data_percent ∧
      (compute_loss_breakdown openoa_available has_availability rows rated_power_kw
        curve_fn cut_in_ws cut_out_ws).missing_data_percent ≤ 100) ∧
    (rows = [] → (compute_loss_breakdown openoa_available has_availability rows
        rated_power_kw curve_fn cut_in_ws cut_out_ws).missing_data_percent = 0) ∧
    (openoa_available = false →
      0 ≤ (compute_loss_breakdown openoa_available has_availability rows rated_power_kw
        curve_fn cut_in_ws cut_out_ws).operational_energy_kwh) := by
  have hsh : 0 ≤ detect_sample_hours rows := detect_sample_hours_nonneg hsort
  simp only [compute_loss_breakdown]
  refine ⟨?_, ?_, ?_, ⟨?_, ?_⟩, ?_, ?_⟩
  · apply safe_round2_nonneg
    rw [downtime_loss]
    split
    · exact le_refl 0
    · exact mul_nonneg (List.sum_nonneg (by
        intro x hx
        obtain ⟨r, _, rfl⟩ := List.mem_map.mp hx
        exact expected_power_at_nonneg hrated r.ws)) hsh
  · apply safe_round2_nonneg
    rw [cutout_loss]
    exact mul_nonneg (mul_nonneg (Nat.cast_nonneg _) hrated) hsh
  · apply safe_round2_nonneg
    rw [theoretical_energy]
    exact mul_nonneg (List.sum_nonneg (by
      intro x hx
      obtain ⟨r, _, rfl⟩ := List.mem_map.mp hx
      exact expected_power_at_nonneg hrated r.ws)) hsh
  · apply safe_round2_nonneg
    rw [missing_data_percent]
    split
    · exact le_refl 0
    · rename_i hnum
      have hpos : 0 < rows.length := Nat.pos_of_ne_zero hnum
      positivity
  · apply safe_round2_le_100
    rw [missing_data_percent]
    split
    · norm_num
    · rename_i hnum
      have hpos : (0 : ℚ) < (rows.length : ℚ) := by
        exact_mod_cast Nat.pos_of_ne_zero hnum
      have hle : ((rows.filter (fun r => r.ws.isNone || r.power.isNone)).length : ℚ) ≤
          (rows.length : ℚ) := by
        exact_mod_cast List.length_filter_le _ rows
      rw [div_mul_eq_mul_div, div_le_iff₀ hpos]
      nlinarith
  · intro hnil
    subst hnil
    rw [show missing_data_percent [] = 0 from rfl]
    exact safe_round2_zero
  · intro hfb
    subst hfb
    apply safe_round2_nonneg
    rw [operational_energy, if_neg (by simp)]
    exact mul_nonneg (List.sum_nonneg (by
      intro x hx
      obtain ⟨r, _, rfl⟩ := List.mem_map.mp hx
      cases hp : r.power
      · norm_num
      · exact le_max_right _ _)) hsh

/-- **C10** (counterexample): with OpenOA available, a single sorted record
with parasitic power −10 kW and rated power 2000 ≥ 0 yields a *negative*
`operational_energy_kwh`, refuting the claim as stated. -/
theorem C10_counterexample :
    (compute_loss_breakdown true false [⟨0, some 5, some (-10), none⟩] 2000 none
      3 25).operational_energy_kwh < 0 := by
  have hop : operational_energy true [⟨0, some 5, some (-10), none⟩]
      (detect_sample_hours [⟨0, some 5, some (-10), none⟩]) = -10 := by
    norm_num [operational_energy, convert_power_to_energy_sum, detect_sample_hours]
  simp only [compute_loss_breakdown, hop]
  rw [safe_round2, show ((-10 : ℚ) * 100) = ((-1000 : ℤ) : ℚ) from by norm_num,
    round_intCast]
  norm_num

/-- **C10** (witness): a sorted two-row dataset in fallback mode satisfies
all the amended bounds. -/
theorem C10_witness :
    List.Chain' (· ≤ ·) (([⟨0, some 5, some 10, some 1⟩, ⟨3600, some 30, some 0, some 0⟩] :
        List LossRow).map LossRow.ts) ∧ (0 : ℚ) ≤ 2000 ∧
    (0 ≤ (compute_loss_breakdown false true
        [⟨0, some 5, some 10, some 1⟩, ⟨3600, some 30, some 0, some 0⟩] 2000 none
        3 25).downtime_loss_kwh ∧
      0 ≤ (compute_loss_breakdown false true
        [⟨0, some 5, some 10, some 1⟩, ⟨3600, some 30, some 0, some 0⟩] 2000 none
        3 25).cutout_loss_kwh ∧
      0 ≤ (compute_loss_breakdown false true
        [⟨0, some 5, some 10, some 1⟩, ⟨3600, some 30, some 0, some 0⟩] 2000 none
        3 25).theoretical_energy_kwh ∧
      (0 ≤ (compute_loss_breakdown false true
          [⟨0, some 5, some 10, some 1⟩, ⟨3600, some 30, some 0, some 0⟩] 2000 none
          3 25).missing_data_percent ∧
        (compute_loss_breakdown false true
          [⟨0, some 5, some 10, some 1⟩, ⟨3600, some 30, some 0, some 0⟩] 2000 none
          3 25).missing_data_percent ≤ 100) ∧
      (([⟨0, some 5, some 10, some 1⟩, ⟨3600, some 30, some 0, some 0⟩] : List LossRow) = [] →
        (compute_loss_breakdown false true
          [⟨0, some 5, some 10, some 1⟩, ⟨3600, some 30, some 0, some 0⟩] 2000 none
          3 25).missing_data_percent = 0) ∧
      (false = false →
        0 ≤ (compute_loss_breakdown false true
          [⟨0, some 5, some 10, some 1⟩, ⟨3600, some 30, some 0, some 0⟩] 2000 none
          3 25).operational_energy_kwh)) :=
  ⟨by norm_num [List.map_cons, List.chain'_cons, List.chain'_singleton], by norm_num,
   C10_loss_breakdown_nonneg false true
     [⟨0, some 5, some 10, some 1⟩, ⟨3600, some 30, some 0, some 0⟩] 2000 none 3 25
     (by norm_num [List.map_cons, List.chain'_cons, List.chain'_singleton]) (by norm_num)⟩

end OpenOAAnalyser

